import Mathlib

/-!
# Verification of the FTDC graphing CLI (`src/ftdc/cmd/parser.go`)

This file is a shallow embedding of the FTDC plot tool: the `graphOptions`
time window, the `range` / `reset range` command switch of `main`'s
read-eval loop, the `gnuplotWriter` series router (`addPoint`,
`addFlatDatum`, `getDatafile`) and the gnuplot script compiler
(`CompileAndClose`).

Modelling conventions:
- Go `int64` values are embedded as `Int` (`math.MaxInt64` becomes the
  literal `maxInt64`); timestamps stay far away from the overflow
  boundary, and none of the embedded operations wrap.
- `float32` metric values are never inspected by the program (they are
  routed verbatim and only formatted on output), so the embedding is
  polymorphic in the value type `V`.
- Operator input is handled at the `List Char` level, mirroring the Go
  string operations `strings.TrimSpace`, `strings.HasPrefix` and
  `strings.SplitN` character by character.
- The `metricFiles` Go map together with the per-metric temp files is
  embedded as an association list from metric name to the list of
  `(timestamp, value)` lines written to that metric's backing store; the
  list order records the order in which stores were created (first
  occurrence of each metric name).  A store is identified by its metric
  name, standing in for the anonymous temp-file path.  Go map iteration
  (`for metricName, file := range gpw.metricFiles`) has unspecified
  order, so the script compiler takes the iteration order as an explicit
  parameter constrained to be a permutation of the map's entries.
- Side effects are made explicit: printed messages become a `Msg` list,
  a Go `panic` becomes the `StepResult.panic` outcome, and process exit
  becomes `StepResult.exit`.
-/

namespace FtdcParser

/-- Go's `math.MaxInt64` (parser.go uses it as the default/open upper bound). -/
def maxInt64 : Int := 9223372036854775807

/-- Struct `graphOptions` (parser.go lines 39-44): `minTimeSeconds` and
`maxTimeSeconds` control which datapoints render based on timestamp. -/
structure GraphOptions where
  minTimeSeconds : Int
  maxTimeSeconds : Int
deriving DecidableEq, Repr

/-- Function `defaultGraphOptions` (parser.go lines 46-51): all datapoints,
`minTimeSeconds = 0`, `maxTimeSeconds = math.MaxInt64`. -/
def defaultGraphOptions : GraphOptions :=
  { minTimeSeconds := 0, maxTimeSeconds := maxInt64 }

/-! ## Timestamp parsing

`time.Parse("2006-01-02T15:04:05", s)` with `.Unix()`: the layout demands
exactly `YYYY-MM-DDTHH:MM:SS` (4-digit year, zero-padded two-digit
fields, nothing left over), validates month, day-in-month (leap years
included), hour, minute and second ranges, and interprets the result as
UTC.  `parseTimestamp` returns the Unix seconds on success. -/

/-- Numeric value of a decimal digit character, `none` otherwise. -/
def digitVal (c : Char) : Option Int :=
  if '0' ≤ c ∧ c ≤ '9' then some ((c.toNat : Int) - 48) else none

/-- Two-digit zero-padded field (layouts `01`, `02`, `15`, `04`, `05`). -/
def num2 (a b : Char) : Option Int := do
  let x ← digitVal a
  let y ← digitVal b
  pure (10 * x + y)

/-- Four-digit year field (layout `2006`). -/
def num4 (a b c d : Char) : Option Int := do
  let x ← digitVal a
  let y ← digitVal b
  let z ← digitVal c
  let w ← digitVal d
  pure (1000 * x + 100 * y + 10 * z + w)

/-- Gregorian leap-year rule, as used by Go's `time` package. -/
def isLeapYear (y : Int) : Bool :=
  y % 4 == 0 && (y % 100 != 0 || y % 400 == 0)

/-- Days in a month (Go `time.daysIn`). -/
def daysIn (mo y : Int) : Int :=
  if mo == 2 then (if isLeapYear y then 29 else 28)
  else if mo == 4 || mo == 6 || mo == 9 || mo == 11 then 30
  else 31

/-- Days since the Unix epoch (1970-01-01) of a civil date, the standard
days-from-civil computation used to realize `time.Date(...).Unix()`. -/
def daysFromCivil (y mo d : Int) : Int :=
  let y2 := if mo ≤ 2 then y - 1 else y
  let era := Int.fdiv y2 400
  let yoe := y2 - era * 400
  let mp := if mo > 2 then mo - 3 else mo + 9
  let doy := (153 * mp + 2) / 5 + d - 1
  let doe := yoe * 365 + yoe / 4 - yoe / 100 + doy
  era * 146097 + doe - 719468

/-- Embedding of `time.Parse("2006-01-02T15:04:05", ·).Unix()`: Unix seconds of a
well-formed UTC timestamp, `none` on any parse failure. -/
def parseTimestamp (cs : List Char) : Option Int :=
  match cs with
  | [y1, y2, y3, y4, '-', o1, o2, '-', d1, d2, 'T',
     h1, h2, ':', i1, i2, ':', s1, s2] => do
    let y ← num4 y1 y2 y3 y4
    let mo ← num2 o1 o2
    let d ← num2 d1 d2
    let h ← num2 h1 h2
    let mi ← num2 i1 i2
    let s ← num2 s1 s2
    if mo < 1 ∨ 12 < mo then none
    else if d < 1 ∨ d > daysIn mo y then none
    else if 24 ≤ h then none
    else if 60 ≤ mi then none
    else if 60 ≤ s then none
    else some (daysFromCivil y mo d * 86400 + h * 3600 + mi * 60 + s)
  | _ => none

/-! ## Go string operations on `List Char` -/

/-- Go `strings.HasPrefix(s, pre)`. -/
def hasPrefixCL : List Char → List Char → Bool
  | _, [] => true
  | [], _ :: _ => false
  | c :: cs, p :: ps => if c = p then hasPrefixCL cs ps else false

/-- Split off everything before the first occurrence of `sep`, together
with the remainder after it; `none` when `sep` does not occur. -/
def splitFirst (sep : Char) : List Char → Option (List Char × List Char)
  | [] => none
  | c :: cs =>
    if c = sep then some ([], cs)
    else
      match splitFirst sep cs with
      | none => none
      | some (l, r) => some (c :: l, r)

/-- Go `strings.SplitN(s, sep, n)` for a single-character separator: at most
`n` substrings, the last one the unsplit remainder. -/
def splitNChars (sep : Char) : Nat → List Char → List (List Char)
  | 0, _ => []
  | 1, cs => [cs]
  | n + 2, cs =>
    match splitFirst sep cs with
    | none => [cs]
    | some (l, r) => l :: splitNChars sep (n + 1) r

/-- Go `strings.TrimSpace`: drop leading and trailing whitespace. -/
def trimChars (cs : List Char) : List Char :=
  ((cs.dropWhile Char.isWhitespace).reverse.dropWhile Char.isWhitespace).reverse

/-! ## The command switch of `main`'s read-eval loop -/

/-- The messages the loop prints while processing one command
(parser.go lines 210-268); error messages carry the offending input. -/
inductive Msg where
  | exiting : Msg
  | helpText : Msg
  | errorParsingStart : List Char → Msg
  | errorParsingEnd : List Char → Msg
  | unknownCommand : Msg
deriving DecidableEq, Repr

/-- Outcome of processing one input line: continue the loop with new
options and the render flag for the next iteration (plus printed
messages), exit the process, or panic (uncaught runtime error). -/
inductive StepResult where
  | cont : GraphOptions → Bool → List Msg → StepResult
  | exit : List Msg → StepResult
  | panic : StepResult
deriving DecidableEq, Repr

/-- The start bound of a `range` command: the keyword `start` maps to the
default open lower bound `0`, anything else must parse as a timestamp
(parser.go lines 235-246). -/
def parseBoundStart (s : List Char) : Option Int :=
  if s = "start".toList then some 0 else parseTimestamp s

/-- The end bound of a `range` command: the keyword `end` maps to the
default open upper bound `math.MaxInt64`, anything else must parse as a
timestamp (parser.go lines 248-259). -/
def parseBoundEnd (e : List Char) : Option Int :=
  if e = "end".toList then some maxInt64 else parseTimestamp e

/-- The body of the `range` case once the two bound tokens are in hand
(parser.go lines 235-259).  Mirrors the sequential mutation: the start
bound is assigned to `minTimeSeconds` before the end bound is examined,
and a parse failure reaches `continue` with the render flag still set. -/
def rangeEffect (opts : GraphOptions) (s e : List Char) : StepResult :=
  match parseBoundStart s with
  | none => .cont opts true [Msg.errorParsingStart s]
  | some mn =>
    let opts' := { opts with minTimeSeconds := mn }
    match parseBoundEnd e with
    | none => .cont opts' true [Msg.errorParsingEnd e]
    | some mx => .cont { opts' with maxTimeSeconds := mx } true []

/-- The `switch` over one trimmed input line (parser.go lines 210-268).
Cases in source order: `quit`, `h`/`help`, lines with the prefix
`"range "` (split into at most 3 pieces; reading `pieces[1]`/`pieces[2]`
panics when fewer than three pieces exist), lines with the prefix
`"reset range"`, the empty line, and the unknown-command default.
`render` stays `true` unless a case sets it to `false`. -/
def commandEffect (opts : GraphOptions) (cmd : List Char) : StepResult :=
  if cmd = "quit".toList then .exit [Msg.exiting]
  else if cmd = "h".toList ∨ cmd = "help".toList then
    .cont opts false [Msg.helpText]
  else if hasPrefixCL cmd "range ".toList then
    match splitNChars ' ' 3 cmd with
    | _ :: s :: e :: _ => rangeEffect opts s e
    | _ => .panic
  else if hasPrefixCL cmd "reset range".toList then
    .cont defaultGraphOptions true []
  else if cmd = [] then .cont opts false []
  else .cont opts false [Msg.unknownCommand]

/-- One raw input line: `cmd = strings.TrimSpace(cmd)` then the switch
(parser.go lines 208-210). -/
def processLine (opts : GraphOptions) (line : List Char) : StepResult :=
  commandEffect opts (trimChars line)

/-! ## The series router (`gnuplotWriter`) -/

variable {V : Type}

/-- Modelled from the spec: `ftdc.FlatDatum` lives in the `ftdc` package
outside this tool's source; per the spec a datapoint is one decoded
record holding a single timestamp (`ConvertedTime().Unix()` seconds) and
multiple named readings, each a metric name and an opaque value. -/
structure FlatDatum (V : Type) where
  timeSeconds : Int
  readings : List (String × V)

/-- Struct `gnuplotWriter` (parser.go lines 29-37): the per-metric backing
stores and the graph options.  `metricFiles` is the map from metric name
to the `(timestamp, value)` lines written to its store, in store-creation
(first-occurrence) order. -/
structure GnuplotWriter (V : Type) where
  metricFiles : List (String × List (Int × V))
  options : GraphOptions

/-- Function `newGnuPlotWriter` (parser.go lines 72-83): empty map, given options. -/
def newGnuplotWriter (opts : GraphOptions) : GnuplotWriter V :=
  { metricFiles := [], options := opts }

/-- Method `getDatafile` followed by the line write (parser.go lines 85-97,
104): append the point to `metricName`'s store, creating the store (at
the end of the map, recording first-occurrence order) when the name is
new. -/
def appendPoint : List (String × List (Int × V)) → String → Int × V →
    List (String × List (Int × V))
  | [], name, p => [(name, [p])]
  | (n, ps) :: rest, name, p =>
    if n = name then (n, ps ++ [p]) :: rest
    else (n, ps) :: appendPoint rest name p

/-- Method `addPoint` (parser.go lines 99-105): discard the reading when its
timestamp falls outside the window, otherwise write it to the metric's
store. -/
def addPoint (gpw : GnuplotWriter V) (timeSeconds : Int) (metricName : String)
    (metricValue : V) : GnuplotWriter V :=
  if timeSeconds < gpw.options.minTimeSeconds ∨
      timeSeconds > gpw.options.maxTimeSeconds then gpw
  else { gpw with metricFiles := appendPoint gpw.metricFiles metricName (timeSeconds, metricValue) }

/-- Method `addFlatDatum` (parser.go lines 107-111): one `addPoint` per reading,
all at the datum's single timestamp. -/
def addFlatDatum (gpw : GnuplotWriter V) (datum : FlatDatum V) : GnuplotWriter V :=
  datum.readings.foldl (fun g r => addPoint g datum.timeSeconds r.1 r.2) gpw

/-- One render pass over the decoded dataset (parser.go lines 196-199):
a fresh writer for the current options, every datum routed. -/
def routeAll (opts : GraphOptions) (data : List (FlatDatum V)) : GnuplotWriter V :=
  data.foldl addFlatDatum (newGnuplotWriter opts)

/-- Go map read `gpw.metricFiles[metricName]` (parser.go line 86). -/
def lookupStore : List (String × List (Int × V)) → String → Option (List (Int × V))
  | [], _ => none
  | (n, ps) :: rest, name => if n = name then some ps else lookupStore rest name

/-- The contents of `metricName`'s backing store ([] when no store exists). -/
def seriesOf (gpw : GnuplotWriter V) (metricName : String) : List (Int × V) :=
  match lookupStore gpw.metricFiles metricName with
  | some ps => ps
  | none => []

/-! ## The script compiler (`CompileAndClose`) -/

/-- One line of the generated top-level gnuplot script
(parser.go lines 128-164), with the data each line carries. -/
inductive ScriptLine where
  | setTermPng : Int → Int → ScriptLine
  | setOutput : String → ScriptLine
  | setMultiplotLayout : Nat → Nat → ScriptLine
  | setTimefmt : ScriptLine
  | setFormatX : ScriptLine
  | setXlabel : ScriptLine
  | setXdataTime : ScriptLine
  | setYrangeZero : ScriptLine
  | plot : String → String → ScriptLine
deriving DecidableEq, Repr

/-- Go `strings.ReplaceAll(metricName, "_", "\_")` (parser.go line 159). -/
def escapeUnderscores (m : String) : String :=
  ⟨m.toList.flatMap fun c => if c = '_' then ['\\', '_'] else [c]⟩

/-- Method `CompileAndClose` (parser.go lines 128-164) given the order `iter` in
which Go enumerates the `metricFiles` map: the fixed header (canvas
`1000 × 200·metricCount`, output name, a `metricCount × 1` multiplot
layout, shared time-axis formatting, the zero y-floor) followed by one
plot directive per metric referencing its store (identified here by its
metric name) and titling it with underscores escaped.  Go map iteration
order is unspecified, so `iter` is any permutation of the map entries;
the function is total, faulting on no input. -/
def compileAndClose (iter : List (String × List (Int × V))) : List ScriptLine :=
  [ScriptLine.setTermPng 1000 (200 * iter.length),
   ScriptLine.setOutput "plot.png",
   ScriptLine.setMultiplotLayout iter.length 1,
   ScriptLine.setTimefmt, ScriptLine.setFormatX,
   ScriptLine.setXlabel, ScriptLine.setXdataTime,
   ScriptLine.setYrangeZero]
  ++ iter.map fun p => ScriptLine.plot p.1 (escapeUnderscores p.1)

/-- The metric names of the plot directives of a script, in script order. -/
def plotNames (script : List ScriptLine) : List String :=
  script.filterMap fun l =>
    match l with
    | ScriptLine.plot name _ => some name
    | _ => none

/-! ## The read-eval loop (parser.go lines 191-269)

Loop shape: at the top of each iteration the current options are
rendered when the `render` flag is set (a brand-new writer routed over
the full decoded dataset); the flag is then reset to `true` and one line
is read and processed; end of input (EOF) and `quit` leave the loop,
a panic aborts the process. -/

/-- The `(options, render-flag)` state after processing a list of input
commands, `none` when the loop stopped early (exit or panic). -/
def execState : GraphOptions → Bool → List (List Char) →
    Option (GraphOptions × Bool)
  | opts, render, [] => some (opts, render)
  | opts, _, c :: rest =>
    match commandEffect opts c with
    | .cont opts' render' _ => execState opts' render' rest
    | _ => none

/-- The sequence of rendered series sets (`metricFiles` of the writer
built at each render-triggering loop top) produced while consuming the
given commands, ending with the render at the loop top that reads EOF. -/
def loopRenders (data : List (FlatDatum V)) :
    List (List Char) → GraphOptions → Bool →
    List (List (String × List (Int × V)))
  | [], opts, render =>
    if render then [(routeAll opts data).metricFiles] else []
  | c :: rest, opts, render =>
    (if render then [(routeAll opts data).metricFiles] else []) ++
    match commandEffect opts c with
    | .cont opts' render' _ => loopRenders data rest opts' render'
    | _ => []

/-- The renders emitted strictly while processing the given commands,
excluding the render at the loop top that follows the last command. -/
def stepRenders (data : List (FlatDatum V)) :
    List (List Char) → GraphOptions → Bool →
    List (List (String × List (Int × V)))
  | [], _, _ => []
  | c :: rest, opts, render =>
    (if render then [(routeAll opts data).metricFiles] else []) ++
    match commandEffect opts c with
    | .cont opts' render' _ => stepRenders data rest opts' render'
    | _ => []

/-- A window-setting command: a `range` or `reset range` input line. -/
def IsWindowCmd (c : List Char) : Prop :=
  hasPrefixCL c "range ".toList = true ∨ hasPrefixCL c "reset range".toList = true

/-- Projection: the options a step continues with, `none` on exit/panic. -/
def optsOf : StepResult → Option GraphOptions
  | .cont opts _ _ => some opts
  | _ => none

/-- Projection: the render flag a step continues with, `none` on exit/panic. -/
def renderOf : StepResult → Option Bool
  | .cont _ render _ => some render
  | _ => none

/-! ## Helper lemmas -/

theorem hasPrefixCL_append_self (p t : List Char) : hasPrefixCL (p ++ t) p = true := by
  induction p with
  | nil => cases t <;> rfl
  | cons c ps ih => simpa [hasPrefixCL] using ih

theorem eq_append_of_hasPrefixCL :
    ∀ (p s : List Char), hasPrefixCL s p = true → ∃ t, s = p ++ t := by
  intro p
  induction p with
  | nil => exact fun s _ => ⟨s, rfl⟩
  | cons c ps ih =>
    intro s h
    match s with
    | [] => simp [hasPrefixCL] at h
    | c' :: s' =>
      rw [hasPrefixCL] at h
      split at h
      · rename_i hc
        obtain ⟨t, ht⟩ := ih s' h
        exact ⟨t, by simp [hc, ht]⟩
      · simp at h

theorem splitFirst_append (s e : List Char) (hs : ' ' ∉ s) :
    splitFirst ' ' (s ++ ' ' :: e) = some (s, e) := by
  induction s with
  | nil => simp [splitFirst]
  | cons c cs ih =>
    have hc : c ≠ ' ' := fun h => hs (h ▸ List.mem_cons_self c cs)
    have hcs : ' ' ∉ cs := fun h => hs (List.mem_cons_of_mem c h)
    simp [splitFirst, hc, ih hcs]

theorem splitN_range (s e : List Char) (hs : ' ' ∉ s) :
    splitNChars ' ' 3 ("range ".toList ++ s ++ ' ' :: e) =
      ["range".toList, s, e] := by
  show splitNChars ' ' 3
      ('r' :: 'a' :: 'n' :: 'g' :: 'e' :: ' ' :: (s ++ ' ' :: e)) = _
  simp [splitNChars, splitFirst, splitFirst_append s e hs]

theorem commandEffect_rangeAny (opts : GraphOptions) (t : List Char) :
    commandEffect opts ("range ".toList ++ t) =
      match splitNChars ' ' 3 ("range ".toList ++ t) with
      | _ :: s :: e :: _ => rangeEffect opts s e
      | _ => StepResult.panic := by
  have h1 : ("range ".toList ++ t) ≠ "quit".toList := by simp
  have h2 : ¬(("range ".toList ++ t) = "h".toList ∨
      ("range ".toList ++ t) = "help".toList) := by simp
  have h3 : hasPrefixCL ("range ".toList ++ t) "range ".toList = true :=
    hasPrefixCL_append_self _ t
  rw [commandEffect, if_neg h1, if_neg h2, if_pos h3]

theorem commandEffect_range (opts : GraphOptions) (s e : List Char) (hs : ' ' ∉ s) :
    commandEffect opts ("range ".toList ++ s ++ ' ' :: e) = rangeEffect opts s e := by
  have h : "range ".toList ++ s ++ ' ' :: e = "range ".toList ++ (s ++ ' ' :: e) := by
    simp
  rw [h, commandEffect_rangeAny, ← h, splitN_range s e hs]

theorem commandEffect_reset (opts : GraphOptions) (t : List Char) :
    commandEffect opts ("reset range".toList ++ t) =
      StepResult.cont defaultGraphOptions true [] := by
  have h1 : ("reset range".toList ++ t) ≠ "quit".toList := by simp
  have h2 : ¬(("reset range".toList ++ t) = "h".toList ∨
      ("reset range".toList ++ t) = "help".toList) := by simp
  have h3 : hasPrefixCL ("reset range".toList ++ t) "range ".toList = false := by rfl
  have h4 : hasPrefixCL ("reset range".toList ++ t) "reset range".toList = true :=
    hasPrefixCL_append_self _ t
  rw [commandEffect, if_neg h1, if_neg h2,
    if_neg (fun h => by rw [h3] at h; cases h), if_pos h4]

/-- Every outcome of the `range` case leaves the render flag set: the two
parse-failure paths reach `continue` without touching `render`, and the
success path falls out of the switch with `render` still `true`. -/
theorem rangeEffect_render (opts : GraphOptions) (s e : List Char)
    (opts' : GraphOptions) (r : Bool) (msgs : List Msg)
    (h : rangeEffect opts s e = StepResult.cont opts' r msgs) : r = true := by
  unfold rangeEffect at h
  rcases hps : parseBoundStart s with _ | mn <;> rw [hps] at h
  · cases h; rfl
  · rcases hpe : parseBoundEnd e with _ | mx <;> rw [hpe] at h <;> cases h <;> rfl

/-- A window-setting command that continues the loop always sets the
render flag. -/
theorem windowCmd_render (opts : GraphOptions) (c : List Char)
    (opts' : GraphOptions) (r : Bool) (msgs : List Msg) (hc : IsWindowCmd c)
    (h : commandEffect opts c = StepResult.cont opts' r msgs) : r = true := by
  rcases hc with hr | hrr
  · obtain ⟨t, rfl⟩ := eq_append_of_hasPrefixCL _ _ hr
    rw [commandEffect_rangeAny] at h
    rcases hsp : splitNChars ' ' 3 ("range ".toList ++ t) with
        _ | ⟨p0, _ | ⟨p1, _ | ⟨p2, rest⟩⟩⟩ <;> rw [hsp] at h
    · exact StepResult.noConfusion h
    · exact StepResult.noConfusion h
    · exact StepResult.noConfusion h
    · exact rangeEffect_render _ _ _ _ _ _ h
  · obtain ⟨t, rfl⟩ := eq_append_of_hasPrefixCL _ _ hrr
    rw [commandEffect_reset] at h
    cases h; rfl

theorem lookupStore_appendPoint (l : List (String × List (Int × V))) (m m' : String)
    (p : Int × V) :
    lookupStore (appendPoint l m p) m' =
      if m' = m then some (((lookupStore l m).getD []) ++ [p]) else lookupStore l m' := by
  induction l with
  | nil =>
    by_cases h : m' = m
    · subst h; simp [appendPoint, lookupStore]
    · simp [appendPoint, lookupStore, h, Ne.symm h]
  | cons hd tl ih =>
    obtain ⟨n, ps⟩ := hd
    by_cases hnm : n = m
    · subst hnm
      by_cases h : m' = n
      · subst h; simp [appendPoint, lookupStore]
      · simp [appendPoint, lookupStore, h, Ne.symm h]
    · by_cases h2 : n = m'
      · have hm : ¬m' = m := fun he => hnm (h2.trans he)
        simp [appendPoint, lookupStore, hnm, h2, hm]
      · simp [appendPoint, lookupStore, hnm, h2, ih]

/-! ## Claims -/

/-- C4: `addPoint` materializes the pair `(t, v)` into metric `m`'s
series if and only if `min ≤ t ≤ max` (inclusive on both ends); a point
outside the window leaves every series unchanged, and the value `v` is
never consulted by the filter. -/
theorem C4_addPoint_window_filter (V : Type) (gpw : GnuplotWriter V) (t : Int)
    (m : String) (v : V) (m' : String) :
    seriesOf (addPoint gpw t m v) m' =
      if m' = m ∧ gpw.options.minTimeSeconds ≤ t ∧ t ≤ gpw.options.maxTimeSeconds
      then seriesOf gpw m' ++ [(t, v)]
      else seriesOf gpw m' := by
  unfold addPoint
  by_cases hw : t < gpw.options.minTimeSeconds ∨ t > gpw.options.maxTimeSeconds
  · rw [if_pos hw, if_neg]
    rintro ⟨-, h1, h2⟩
    rcases hw with hw | hw <;> omega
  · rw [if_neg hw]
    push_neg at hw
    obtain ⟨h1, h2⟩ := hw
    show (match lookupStore (appendPoint gpw.metricFiles m (t, v)) m' with
      | some ps => ps | none => []) = _
    rw [lookupStore_appendPoint]
    by_cases hm : m' = m
    · subst hm
      rw [if_pos rfl, if_pos ⟨rfl, h1, h2⟩]
      cases hl : lookupStore gpw.metricFiles m' <;> simp [seriesOf, hl]
    · rw [if_neg hm, if_neg (fun hc => hm hc.1)]
      rfl

/-- C6: a non-empty input line matching no recognized command prints the
unknown-command message, leaves the window unchanged, and clears the
render flag (no render). -/
theorem C6_unknown_command (opts : GraphOptions) (cmd : List Char)
    (hne : cmd ≠ []) (hq : cmd ≠ "quit".toList)
    (hh : cmd ≠ "h".toList) (hhelp : cmd ≠ "help".toList)
    (hr : hasPrefixCL cmd "range ".toList = false)
    (hrr : hasPrefixCL cmd "reset range".toList = false) :
    commandEffect opts cmd = StepResult.cont opts false [Msg.unknownCommand] := by
  rw [commandEffect, if_neg hq,
    if_neg (by rintro (h | h); exacts [hh h, hhelp h]),
    if_neg (fun h => by rw [hr] at h; cases h),
    if_neg (fun h => by rw [hrr] at h; cases h), if_neg hne]

/-- Witness for C6 at the concrete line `foo`. -/
theorem C6_unknown_command_witness :
    commandEffect defaultGraphOptions "foo".toList =
      StepResult.cont defaultGraphOptions false [Msg.unknownCommand] :=
  C6_unknown_command defaultGraphOptions "foo".toList (by decide) (by decide)
    (by decide) (by decide) (by decide) (by decide)

/-- C10: every trimmed input line that merely begins with `reset range`
(such as `reset ranges`) resets both bounds to their defaults and leaves
the render flag set, instead of being treated as unknown. -/
theorem C10_reset_range_by_prefix (opts : GraphOptions) (cmd : List Char)
    (h : hasPrefixCL cmd "reset range".toList = true) :
    commandEffect opts cmd = StepResult.cont defaultGraphOptions true [] := by
  obtain ⟨t, rfl⟩ := eq_append_of_hasPrefixCL _ _ h
  exact commandEffect_reset opts t

/-- Witness for C10 at the concrete line `reset ranges`. -/
theorem C10_reset_range_by_prefix_witness :
    hasPrefixCL "reset ranges".toList "reset range".toList = true ∧
    commandEffect { minTimeSeconds := 5, maxTimeSeconds := 7 } "reset ranges".toList =
      StepResult.cont defaultGraphOptions true [] :=
  ⟨by decide, C10_reset_range_by_prefix _ "reset ranges".toList (by decide)⟩

/-- C3 (code evaluation at the failing input): the line `range 100`
splits into only two pieces, so reading `pieces[2]` panics — the loop
does not report the fault and continue, it crashes; any later command
is never processed. -/
theorem C3_short_range_line_panics :
    commandEffect defaultGraphOptions "range 100".toList = StepResult.panic ∧
    execState defaultGraphOptions true
      ["range 100".toList, "reset range".toList] = none := by decide

/-- C9: an empty decoded dataset creates zero metric series, and script
compilation still completes (the compiler is total), emitting the fixed
header with a zero-height canvas, a `0 × 1` multiplot layout, and zero
plot directives. -/
theorem C9_empty_dataset (V : Type) (opts : GraphOptions) :
    (routeAll opts ([] : List (FlatDatum V))).metricFiles = [] ∧
    compileAndClose ([] : List (String × List (Int × V))) =
      [ScriptLine.setTermPng 1000 0, ScriptLine.setOutput "plot.png",
       ScriptLine.setMultiplotLayout 0 1, ScriptLine.setTimefmt,
       ScriptLine.setFormatX, ScriptLine.setXlabel, ScriptLine.setXdataTime,
       ScriptLine.setYrangeZero] ∧
    plotNames (compileAndClose ([] : List (String × List (Int × V)))) = [] :=
  ⟨rfl, rfl, rfl⟩

/-- C1 counterexample: `range 2024-09-24T18:00:00 bogus` — the start
bound parses, the end bound is malformed, and the window after the
command is `(1727200800, MaxInt64)`, not the prior `(0, MaxInt64)`:
`minTimeSeconds` was already assigned before the end bound was examined. -/
theorem C1_partial_update_counterexample :
    parseBoundStart "2024-09-24T18:00:00".toList = some 1727200800 ∧
    parseBoundEnd "bogus".toList = none ∧
    commandEffect defaultGraphOptions "range 2024-09-24T18:00:00 bogus".toList =
      StepResult.cont { minTimeSeconds := 1727200800, maxTimeSeconds := maxInt64 }
        true [Msg.errorParsingEnd "bogus".toList] ∧
    optsOf (commandEffect defaultGraphOptions
        "range 2024-09-24T18:00:00 bogus".toList) ≠ some defaultGraphOptions := by
  decide

/-- C1 amended: when the start bound fails to parse the window is left
bit-for-bit unchanged, but when the start bound parses (or is the
keyword `start`) and only the end bound is malformed, `minTimeSeconds`
is overwritten with the start bound while `maxTimeSeconds` is kept. -/
theorem C1_range_parse_failure_window (opts : GraphOptions) (s e : List Char)
    (hs : ' ' ∉ s) :
    (parseBoundStart s = none →
      commandEffect opts ("range ".toList ++ s ++ ' ' :: e) =
        StepResult.cont opts true [Msg.errorParsingStart s]) ∧
    (∀ mn, parseBoundStart s = some mn → parseBoundEnd e = none →
      commandEffect opts ("range ".toList ++ s ++ ' ' :: e) =
        StepResult.cont
          { minTimeSeconds := mn, maxTimeSeconds := opts.maxTimeSeconds }
          true [Msg.errorParsingEnd e]) := by
  rw [commandEffect_range opts s e hs]
  constructor
  · intro hps
    unfold rangeEffect
    rw [hps]
  · intro mn hps hpe
    unfold rangeEffect
    rw [hps, hpe]

/-- Witness for C1 amended: both failure shapes at concrete commands. -/
theorem C1_range_parse_failure_window_witness :
    parseBoundStart "bogus".toList = none ∧
    commandEffect { minTimeSeconds := 5, maxTimeSeconds := 7 }
        ("range ".toList ++ "bogus".toList ++ ' ' :: "x".toList) =
      StepResult.cont { minTimeSeconds := 5, maxTimeSeconds := 7 } true
        [Msg.errorParsingStart "bogus".toList] ∧
    commandEffect { minTimeSeconds := 5, maxTimeSeconds := 7 }
        ("range ".toList ++ "start".toList ++ ' ' :: "bogus".toList) =
      StepResult.cont { minTimeSeconds := 0, maxTimeSeconds := 7 } true
        [Msg.errorParsingEnd "bogus".toList] :=
  ⟨by decide,
    (C1_range_parse_failure_window _ "bogus".toList "x".toList (by decide)).1
      (by decide),
    (C1_range_parse_failure_window _ "start".toList "bogus".toList (by decide)).2
      0 (by decide) (by decide)⟩

/-- C2 counterexample: after `range bogus 2024-09-24T18:00:00` (malformed
start bound) the render flag is still `true`, so the loop rebuilds a
writer and renders at the next loop top instead of suppressing the
render. -/
theorem C2_malformed_range_renders_counterexample :
    parseBoundStart "bogus".toList = none ∧
    renderOf (commandEffect defaultGraphOptions
        "range bogus 2024-09-24T18:00:00".toList) = some true ∧
    (loopRenders ([⟨100, [("cpu", (1 : Int))]⟩] : List (FlatDatum Int))
        ["range bogus 2024-09-24T18:00:00".toList]
        defaultGraphOptions true).length = 2 := by
  decide

/-- C2 amended: a `range` command with a malformed bound reaches
`continue` with the render flag still set, so a render is triggered at
the next loop iteration (with the possibly partially-updated window). -/
theorem C2_malformed_range_still_renders (opts : GraphOptions) (s e : List Char)
    (hs : ' ' ∉ s)
    (hmal : parseBoundStart s = none ∨ parseBoundEnd e = none) :
    renderOf (commandEffect opts ("range ".toList ++ s ++ ' ' :: e)) = some true := by
  rw [commandEffect_range opts s e hs]
  unfold rangeEffect
  rcases hmal with hm | hm
  · rw [hm]; rfl
  · rcases hps : parseBoundStart s with _ | mn
    · rfl
    · rw [hm]; rfl

/-- Witness for C2 amended at a concrete malformed command. -/
theorem C2_malformed_range_still_renders_witness :
    parseBoundStart "x".toList = none ∧
    renderOf (commandEffect defaultGraphOptions
        ("range ".toList ++ "x".toList ++ ' ' :: "y".toList)) = some true :=
  ⟨by decide,
    C2_malformed_range_still_renders defaultGraphOptions "x".toList "y".toList
      (by decide) (Or.inl (by decide))⟩

/-- C8 counterexample: with prior window `(5, 7)`, the command
`range start 2024-09-24T18:30:00` sets the window to
`(0, 1727202600)`, while `range 0 2024-09-24T18:30:00` is a parse error
(`0` is not a `YYYY-MM-DDTHH:MM:SS` timestamp) that leaves the window at
`(5, 7)` — the two commands do not behave identically even though the
other bound `2024-09-24T18:30:00` is well-formed. -/
theorem C8_keyword_literal_counterexample :
    parseTimestamp "2024-09-24T18:30:00".toList = some 1727202600 ∧
    commandEffect { minTimeSeconds := 5, maxTimeSeconds := 7 }
        "range start 2024-09-24T18:30:00".toList =
      StepResult.cont { minTimeSeconds := 0, maxTimeSeconds := 1727202600 }
        true [] ∧
    commandEffect { minTimeSeconds := 5, maxTimeSeconds := 7 }
        "range 0 2024-09-24T18:30:00".toList =
      StepResult.cont { minTimeSeconds := 5, maxTimeSeconds := 7 } true
        [Msg.errorParsingStart "0".toList] ∧
    optsOf (commandEffect { minTimeSeconds := 5, maxTimeSeconds := 7 }
        "range start 2024-09-24T18:30:00".toList) ≠
      optsOf (commandEffect { minTimeSeconds := 5, maxTimeSeconds := 7 }
        "range 0 2024-09-24T18:30:00".toList) := by
  decide

/-- C8 amended: the keyword bounds map to the default open bounds
directly — `range start <X>` sets `minTimeSeconds` to `0` and
`range <X> end` sets `maxTimeSeconds` to `MaxInt64`, for every
well-formed other bound `X` (no literal command is equivalent, since
neither `0` nor `MaxInt64` is a parseable timestamp). -/
theorem C8_keyword_bounds_are_defaults (opts : GraphOptions) (s e : List Char)
    (mn mx : Int) (hs : ' ' ∉ s)
    (hsp : parseBoundStart s = some mn) (hep : parseBoundEnd e = some mx) :
    commandEffect opts ("range ".toList ++ "start".toList ++ ' ' :: e) =
      StepResult.cont { minTimeSeconds := 0, maxTimeSeconds := mx } true [] ∧
    commandEffect opts ("range ".toList ++ s ++ ' ' :: "end".toList) =
      StepResult.cont { minTimeSeconds := mn, maxTimeSeconds := maxInt64 }
        true [] := by
  constructor
  · rw [commandEffect_range opts "start".toList e (by decide)]
    unfold rangeEffect
    rw [show parseBoundStart "start".toList = some 0 from by decide, hep]
  · rw [commandEffect_range opts s "end".toList hs]
    unfold rangeEffect
    rw [hsp, show parseBoundEnd "end".toList = some maxInt64 from by decide]

/-- Witness for C8 amended at a concrete well-formed bound. -/
theorem C8_keyword_bounds_are_defaults_witness :
    parseBoundStart "2024-09-24T18:30:00".toList = some 1727202600 ∧
    parseBoundEnd "2024-09-24T18:30:00".toList = some 1727202600 ∧
    commandEffect { minTimeSeconds := 5, maxTimeSeconds := 7 }
        ("range ".toList ++ "start".toList ++ ' ' :: "2024-09-24T18:30:00".toList) =
      StepResult.cont { minTimeSeconds := 0, maxTimeSeconds := 1727202600 }
        true [] ∧
    commandEffect { minTimeSeconds := 5, maxTimeSeconds := 7 }
        ("range ".toList ++ "2024-09-24T18:30:00".toList ++ ' ' :: "end".toList) =
      StepResult.cont { minTimeSeconds := 1727202600, maxTimeSeconds := maxInt64 }
        true [] :=
  ⟨by decide, by decide,
    (C8_keyword_bounds_are_defaults _ "2024-09-24T18:30:00".toList
      "2024-09-24T18:30:00".toList 1727202600 1727202600 (by decide)
      (by decide) (by decide)).1,
    (C8_keyword_bounds_are_defaults _ "2024-09-24T18:30:00".toList
      "2024-09-24T18:30:00".toList 1727202600 1727202600 (by decide)
      (by decide) (by decide)).2⟩

/-- A two-metric dataset: metric `a` is routed before metric `b`, so the
first-seen order of the stores is `a` then `b`. -/
def twoMetricData : List (FlatDatum Int) :=
  [⟨0, [("a", 1)]⟩, ⟨0, [("b", 2)]⟩]

/-- C5 counterexample: the compiler emits plot directives in the order
Go happens to enumerate the `metricFiles` map, and the reversed
enumeration is a legitimate map-iteration order (a permutation of the
entries) whose plot order `["b", "a"]` differs from the first-seen order
`["a", "b"]`. -/
theorem C5_iteration_order_counterexample :
    ((routeAll defaultGraphOptions twoMetricData).metricFiles.reverse).Perm
      (routeAll defaultGraphOptions twoMetricData).metricFiles ∧
    plotNames (compileAndClose
        (routeAll defaultGraphOptions twoMetricData).metricFiles.reverse) ≠
      (routeAll defaultGraphOptions twoMetricData).metricFiles.map Prod.fst := by
  constructor
  · exact List.reverse_perm _
  · decide

/-- C5 amended: the compiled script always lays graphs out as a single
column with one row per metric, and emits exactly one plot directive per
metric — in the map-iteration order, which is some permutation of the
first-seen (store-creation) order rather than that order itself. -/
theorem C5_single_column_layout (V : Type) (w : GnuplotWriter V)
    (iter : List (String × List (Int × V))) (hperm : iter.Perm w.metricFiles) :
    ScriptLine.setMultiplotLayout w.metricFiles.length 1 ∈ compileAndClose iter ∧
    plotNames (compileAndClose iter) = iter.map Prod.fst ∧
    (plotNames (compileAndClose iter)).Perm (w.metricFiles.map Prod.fst) := by
  have hnames : plotNames (compileAndClose iter) = iter.map Prod.fst := by
    clear hperm
    unfold compileAndClose plotNames
    rw [List.filterMap_append]
    simp only [List.filterMap_cons, List.filterMap_nil]
    induction iter with
    | nil => rfl
    | cons hd tl ih => simpa using ih
  refine ⟨?_, hnames, ?_⟩
  · rw [← hperm.length_eq]
    unfold compileAndClose
    exact List.mem_append_left _ (by simp)
  · rw [hnames]
    exact hperm.map Prod.fst

/-- Witness for C5 amended at the two-metric dataset with the reversed
iteration order. -/
theorem C5_single_column_layout_witness :
    ScriptLine.setMultiplotLayout
        (routeAll defaultGraphOptions twoMetricData).metricFiles.length 1 ∈
      compileAndClose
        (routeAll defaultGraphOptions twoMetricData).metricFiles.reverse ∧
    plotNames (compileAndClose
        (routeAll defaultGraphOptions twoMetricData).metricFiles.reverse) =
      (routeAll defaultGraphOptions twoMetricData).metricFiles.reverse.map Prod.fst ∧
    (plotNames (compileAndClose
        (routeAll defaultGraphOptions twoMetricData).metricFiles.reverse)).Perm
      ((routeAll defaultGraphOptions twoMetricData).metricFiles.map Prod.fst) :=
  C5_single_column_layout Int (routeAll defaultGraphOptions twoMetricData)
    (routeAll defaultGraphOptions twoMetricData).metricFiles.reverse
    (List.reverse_perm _)

instance (c : List Char) : Decidable (IsWindowCmd c) := by
  unfold IsWindowCmd; infer_instance

theorem execState_append (opts : GraphOptions) (r : Bool)
    (xs ys : List (List Char)) :
    execState opts r (xs ++ ys) =
      match execState opts r xs with
      | some (o, r') => execState o r' ys
      | none => none := by
  induction xs generalizing opts r with
  | nil => rfl
  | cons c rest ih =>
    show execState opts r (c :: (rest ++ ys)) = _
    cases hce : commandEffect opts c with
    | cont o' r' msgs => simp [execState, hce, ih]
    | exit msgs => simp [execState, hce]
    | panic => simp [execState, hce]

/-- When the prefix `xs` of the input runs to completion, the render
stream factors: the renders during `xs` followed by the stream of the
continuation, started from the state `xs` reached. -/
theorem loopRenders_append (V : Type) (data : List (FlatDatum V))
    (xs ys : List (List Char)) (opts o' : GraphOptions) (r r' : Bool)
    (h : execState opts r xs = some (o', r')) :
    loopRenders data (xs ++ ys) opts r =
      stepRenders data xs opts r ++ loopRenders data ys o' r' := by
  induction xs generalizing opts r with
  | nil =>
    cases h
    simp [stepRenders]
  | cons c rest ih =>
    rw [show execState opts r (c :: rest) =
        (match commandEffect opts c with
          | .cont o2 r2 _ => execState o2 r2 rest
          | _ => none) from rfl] at h
    cases hce : commandEffect opts c with
    | cont o2 r2 msgs =>
      rw [hce] at h
      have h' : execState o2 r2 rest = some (o', r') := h
      simp [loopRenders, stepRenders, hce, ih o2 r2 h', List.append_assoc]
    | exit msgs => rw [hce] at h; cases h
    | panic => rw [hce] at h; cases h

/-- The loop's very first action (render flag initially set) is the
unrestricted render of the full dataset. -/
theorem loopRenders_head (V : Type) (data : List (FlatDatum V))
    (cmds : List (List Char)) :
    (loopRenders data cmds defaultGraphOptions true).head? =
      some ((routeAll defaultGraphOptions data).metricFiles) := by
  cases cmds <;> simp [loopRenders]

/-- Window-setting commands that continue the loop always leave the
render flag set; so does an empty command list started with the flag set. -/
theorem execState_windowCmds_flag :
    ∀ (cmds : List (List Char)), (∀ c ∈ cmds, IsWindowCmd c) →
      ∀ (o0 o : GraphOptions) (r : Bool),
        execState o0 true cmds = some (o, r) → r = true := by
  intro cmds
  induction cmds with
  | nil =>
    intro _ o0 o r h
    cases h
    rfl
  | cons c rest ih =>
    intro hw o0 o r h
    rw [show execState o0 true (c :: rest) =
        (match commandEffect o0 c with
          | .cont o2 r2 _ => execState o2 r2 rest
          | _ => none) from rfl] at h
    cases hce : commandEffect o0 c with
    | cont o2 r2 msgs =>
      rw [hce] at h
      have hr2 : r2 = true :=
        windowCmd_render o0 c o2 r2 msgs (hw c (List.mem_cons_self c rest)) hce
      subst hr2
      exact ih (fun d hd => hw d (List.mem_cons_of_mem c hd)) o2 o r h
    | exit msgs => rw [hce] at h; cases h
    | panic => rw [hce] at h; cases h

/-- C7: every render is built from scratch out of the full decoded
dataset and the current window, so (i) after two different sequences of
window-setting commands reaching the same window, the continuation of
the render stream is identical — render history is invisible — and
(ii) appending `reset range` to any completed sequence of window-setting
commands makes the final render identical to the initial, unrestricted
render (which is always the first element of the stream). -/
theorem C7_render_depends_only_on_window (V : Type) (data : List (FlatDatum V)) :
    (∀ (cmds cmds' tail : List (List Char)) (o : GraphOptions) (r1 r2 : Bool),
      (∀ c ∈ cmds, IsWindowCmd c) → (∀ c ∈ cmds', IsWindowCmd c) →
      execState defaultGraphOptions true cmds = some (o, r1) →
      execState defaultGraphOptions true cmds' = some (o, r2) →
      (loopRenders data (cmds ++ tail) defaultGraphOptions true).drop
          (stepRenders data cmds defaultGraphOptions true).length =
        (loopRenders data (cmds' ++ tail) defaultGraphOptions true).drop
          (stepRenders data cmds' defaultGraphOptions true).length) ∧
    (∀ (cmds : List (List Char)) (o : GraphOptions) (r : Bool),
      (∀ c ∈ cmds, IsWindowCmd c) →
      execState defaultGraphOptions true cmds = some (o, r) →
      (loopRenders data (cmds ++ ["reset range".toList])
          defaultGraphOptions true).getLast? =
        some ((routeAll defaultGraphOptions data).metricFiles) ∧
      (loopRenders data (cmds ++ ["reset range".toList])
          defaultGraphOptions true).head? =
        some ((routeAll defaultGraphOptions data).metricFiles)) := by
  constructor
  · intro cmds cmds' tail o r1 r2 hw hw' h1 h2
    have hr1 := execState_windowCmds_flag cmds hw _ _ _ h1
    have hr2 := execState_windowCmds_flag cmds' hw' _ _ _ h2
    subst hr1
    subst hr2
    rw [loopRenders_append V data cmds tail _ _ _ _ h1,
      loopRenders_append V data cmds' tail _ _ _ _ h2,
      List.drop_left, List.drop_left]
  · intro cmds o r hw h
    have hreset : commandEffect o "reset range".toList =
        StepResult.cont defaultGraphOptions true [] := by
      have h0 := commandEffect_reset o []
      rwa [List.append_nil] at h0
    refine ⟨?_, loopRenders_head V data _⟩
    rw [loopRenders_append V data cmds _ _ _ _ _ h]
    have hreset' : commandEffect o
        ['r', 'e', 's', 'e', 't', ' ', 'r', 'a', 'n', 'g', 'e'] =
        StepResult.cont defaultGraphOptions true [] := hreset
    have hone : loopRenders data ["reset range".toList] o r =
        (if r then [(routeAll o data).metricFiles] else []) ++
          [(routeAll defaultGraphOptions data).metricFiles] := by
      simp [loopRenders, hreset']
    rw [hone, ← List.append_assoc, List.getLast?_append_cons]
    rfl

/-- A one-metric dataset used to instantiate the loop-level theorems. -/
def cpuData : List (FlatDatum Int) := [⟨100, [("cpu", 1)]⟩]

/-- A well-formed window-setting command. -/
def rangeEndCmd : List Char := "range 2024-09-24T18:00:00 end".toList

/-- Witness for C7: one and two applications of the same `range` command
reach the same window and produce the same continuation stream, and
appending `reset range` ends the stream with the unrestricted render. -/
theorem C7_render_depends_only_on_window_witness :
    (loopRenders cpuData ([rangeEndCmd] ++ ["h".toList])
        defaultGraphOptions true).drop
        (stepRenders cpuData [rangeEndCmd] defaultGraphOptions true).length =
      (loopRenders cpuData ([rangeEndCmd, rangeEndCmd] ++ ["h".toList])
          defaultGraphOptions true).drop
        (stepRenders cpuData [rangeEndCmd, rangeEndCmd]
          defaultGraphOptions true).length ∧
    (loopRenders cpuData ([rangeEndCmd] ++ ["reset range".toList])
        defaultGraphOptions true).getLast? =
      some ((routeAll defaultGraphOptions cpuData).metricFiles) :=
  ⟨(C7_render_depends_only_on_window Int cpuData).1 [rangeEndCmd]
      [rangeEndCmd, rangeEndCmd] ["h".toList]
      { minTimeSeconds := 1727200800, maxTimeSeconds := maxInt64 } true true
      (by decide) (by decide) (by decide) (by decide),
    ((C7_render_depends_only_on_window Int cpuData).2 [rangeEndCmd]
      { minTimeSeconds := 1727200800, maxTimeSeconds := maxInt64 } true
      (by decide) (by decide)).1⟩

end FtdcParser
